import Mathlib

/-!
Shallow embedding of the TradeLab data-fetching core
(`src/tradelab/data/ibkr_fetcher.py`, `src/tradelab/data/batch_fetcher.py`,
`src/tradelab/config/settings.py`) and proofs of the spec's testable
properties against it.

Modelling conventions:
* Calendar dates are day ordinals (`Nat`); day 0 is a Monday, so the weekday
  of day `d` is `d % 7` (0 = Mon .. 6 = Sun).  `pd.date_range(freq='B')`
  enumerates exactly the weekday ordinals of the closed window.
* A daily bar batch (`util.df(bars)`) is a list of OHLCV rows.
* The gateway (`ib.reqHistoricalData`) and disk I/O are oracles supplied as
  explicit environment functions: per day the request either raises or
  returns a bar list, and a save either succeeds or raises.
* The file system is a map from path strings to file contents; a write is
  an unconditional overwrite, as `DataFrame.to_csv` is.
* Logging and sleeping have no effect on data flow; sleeps are counted
  where the spec makes temporal claims about them.
-/

namespace TradeLab

/-- Weekday test: day ordinals with day 0 a Monday, so Mon..Fri are
residues 0..4 and Sat/Sun are 5/6. -/
def isWeekday (d : Nat) : Bool := d % 7 < 5

/-- `pd.date_range(start=start, end=end, freq='B')` from
`IBKRFetcher.fetch_date_range`: all weekday ordinals in the closed window
`[s, e]`, ascending.  When `e < s` the window is empty, as in pandas. -/
def businessDays (s e : Nat) : List Nat :=
  ((List.range (e + 1 - s)).map (fun i => s + i)).filter (fun d => isWeekday d)

/-- Rendering of a day ordinal, standing in for `strftime('%Y-%m-%d')`
(an injective rendering of the date, as the ISO format is). -/
def dateStr (d : Nat) : String := Nat.repr d

/-- The fields of `Settings` that the fetchers consume
(`settings.py`: `RAW_DATA_DIR`, `MARKET_HOURS`, `DATA_SETTINGS`).
`marketStart`/`marketEnd` are the parsed `(hour, minute)` pairs the fetcher
builds in `__init__`; `default_retries` and `retry_delay` are the
`DATA_SETTINGS` entries. -/
structure Settings where
  rawDataDir : String
  marketStart : Nat × Nat
  marketEnd : Nat × Nat
  timezone : String
  interval : String
  requiredColumns : List String
  default_retries : Nat
  retry_delay : Nat
deriving DecidableEq

/-- One OHLCV row of a daily bar batch. -/
structure Bar where
  dt : Nat
  o : Int
  hi : Int
  lo : Int
  c : Int
  vol : Int
deriving DecidableEq

/-- A daily bar batch: `util.df(bars)`, a list of rows. -/
abbrev Df := List Bar

/-- The file system: path string to file contents. -/
def FS := String → Option Df

/-- The canonical path `_save_data` writes to:
`<save_dir>/<TICKER>/raw_<TICKER>_<date>.csv`. -/
def savePath (s : Settings) (ticker ds : String) : String :=
  s.rawDataDir ++ "/" ++ ticker ++ "/raw_" ++ ticker ++ "_" ++ ds ++ ".csv"

/-- `IBKRFetcher._save_data`: writes the batch at the canonical path
(unconditional overwrite) and returns the path; `ioOk = false` models the
`except` branch, where the I/O raised, nothing was written and `None` is
returned. -/
def saveData (s : Settings) (ioOk : Bool) (fs : FS) (data : Df)
    (ticker ds : String) : Option String × FS :=
  if ioOk then
    let p := savePath s ticker ds
    (some p, fun q => if q = p then some data else fs q)
  else (none, fs)

/-- Outcome of one `ib.reqHistoricalData` call: the request raised, or it
returned a (possibly empty) bar list. -/
inductive ReqResult where
  | err : ReqResult
  | bars : Df → ReqResult
deriving DecidableEq

/-- Environment of one `fetch_date_range` run: per day, the gateway
outcome and whether that day's `_save_data` I/O succeeds. -/
structure FetchEnv where
  req : Nat → ReqResult
  ioOk : Nat → Bool

/-- The historical-data request `fetch_date_range` builds for one day:
anchored at the market close time on that day, one day of 1-minute trade
bars, regular trading hours only. -/
structure HistRequest where
  ticker : String
  day : Nat
  endHour : Nat
  endMinute : Nat
  durationStr : String
  barSize : String
  whatToShow : String
  useRTH : Bool
deriving DecidableEq

def mkRequest (s : Settings) (ticker : String) (d : Nat) : HistRequest :=
  { ticker := ticker, day := d,
    endHour := s.marketEnd.1, endMinute := s.marketEnd.2,
    durationStr := "1 D", barSize := "1 min",
    whatToShow := "TRADES", useRTH := true }

/-- Observable state accumulated by a `fetch_date_range` run: the result
mapping (keyed by day), the file system, the file writes performed by
`_save_data` (path and day), and the gateway requests issued. -/
structure DayState where
  results : List (Nat × Df)
  fs : FS
  writes : List (String × Nat)
  requests : List HistRequest

/-- One iteration of the per-day loop in `fetch_date_range`: issue the
request; on an exception, catch and continue; on an empty bar list, warn
and continue; otherwise convert to a frame and, only if `_save_data`
succeeds, record the `(date, df)` entry. -/
def fetchStep (s : Settings) (env : FetchEnv) (ticker : String)
    (st : DayState) (d : Nat) : DayState :=
  let st1 : DayState := { st with requests := st.requests ++ [mkRequest s ticker d] }
  match env.req d with
  | ReqResult.err => st1
  | ReqResult.bars bs =>
    if bs.isEmpty then st1
    else
      let df := bs
      if 0 < df.length then
        match saveData s (env.ioOk d) st1.fs df ticker (dateStr d) with
        | (some _, fs') =>
          { st1 with results := st1.results ++ [(d, df)],
                     writes := st1.writes ++ [(savePath s ticker (dateStr d), d)],
                     fs := fs' }
        | (none, fs') => { st1 with fs := fs' }
      else st1

/-- `IBKRFetcher.fetch_date_range`: not connected means an empty mapping,
no I/O and no requests; otherwise fold the per-day step over the business
days of the window (`end_date` absent means the single start date). -/
def fetchDateRange (s : Settings) (connected : Bool) (env : FetchEnv)
    (ticker : String) (startDate : Nat) (endDate : Option Nat) (fs : FS) :
    DayState :=
  if connected then
    (businessDays startDate (endDate.getD startDate)).foldl
      (fetchStep s env ticker) ⟨[], fs, [], []⟩
  else ⟨[], fs, [], []⟩

/-- The fetcher's connection state (`self.connected`). -/
structure FetcherState where
  connected : Bool
deriving DecidableEq

/-- `IBKRFetcher.connect`: the gateway call either succeeds (flag set,
`True` returned) or raises (caught; flag untouched, `False` returned). -/
def connect (gatewayOk : Bool) (st : FetcherState) : Bool × FetcherState :=
  if gatewayOk then (true, { st with connected := true })
  else (false, st)

/-- Outcome of one delegated `fetch_date_range` call inside the batch
loop: it raised, or it returned a per-ticker mapping. -/
inductive TickerResult where
  | err : TickerResult
  | ok : List (Nat × Df) → TickerResult
deriving DecidableEq

def TickerResult.isOk : TickerResult → Bool
  | TickerResult.err => false
  | TickerResult.ok _ => true

/-- Environment of one `BatchFetcher.fetch_all` run: whether the shared
connect succeeds, and the outcome of the delegated fetch at each
(1-based manifest position, ticker). -/
structure BatchEnv where
  connectOk : Bool
  fetch : Nat → String → TickerResult

/-- Observable outcome of a `fetch_all` run: the `results` dict, the
number of inter-ticker `time.sleep(1)` calls performed, and how many
times the shared connection was disconnected. -/
structure BatchResult where
  results : String → Option (List (Nat × Df))
  sleeps : Nat
  disconnects : Nat

/-- Python dict assignment `m[k] = v`. -/
def dictInsert {α : Type} (m : String → Option α) (k : String) (v : α) :
    String → Option α :=
  fun q => if q = k then some v else m q

/-- Intermediate state of the batch loop. -/
structure BatchState where
  results : String → Option (List (Nat × Df))
  sleeps : Nat

/-- One iteration of the per-ticker loop in `fetch_all`: delegate to
`fetch_date_range`; if it raises, the `except` logs and continues (so the
dict assignment AND the `time.sleep(1)` are both skipped); otherwise
record the result (even if empty) and sleep. -/
def batchStep (env : BatchEnv) (st : BatchState) (p : Nat × String) :
    BatchState :=
  match env.fetch p.1 p.2 with
  | TickerResult.err => st
  | TickerResult.ok data =>
    { results := dictInsert st.results p.2 data, sleeps := st.sleeps + 1 }

/-- `BatchFetcher.fetch_all`: a failed connect returns the empty dict
before the `try`, so no disconnect happens; otherwise the ticker loop
runs inside `try ... finally: self.fetcher.disconnect()`, so the
connection is disconnected exactly once on exit. `enumerate(tickers, 1)`
gives 1-based positions. -/
def fetchAll (env : BatchEnv) (tickers : List String) : BatchResult :=
  if env.connectOk then
    let st := (tickers.enumFrom 1).foldl (batchStep env)
      { results := fun _ => none, sleeps := 0 }
    { results := st.results, sleeps := st.sleeps, disconnects := 1 }
  else { results := fun _ => none, sleeps := 0, disconnects := 0 }

/-- The batch environment in which every delegated fetch is the real
`fetch_date_range` (per-ticker gateway environment `tickerEnv`), except
at positions where `raises` says the call raised. -/
def delegatedFetch (s : Settings) (tickerEnv : String → FetchEnv)
    (raises : Nat → Bool) (startDate : Nat) (endDate : Option Nat)
    (fs : FS) : Nat → String → TickerResult :=
  fun i t =>
    if raises i then TickerResult.err
    else TickerResult.ok
      (fetchDateRange s true (tickerEnv t) t startDate endDate fs).results

/-- Ticker parsing in `ibkr_fetcher.main`: default `"NNE"`; if
`'--ticker'` occurs in `sys.argv`, take the argument after its first
occurrence when there is one, else keep the default. -/
def parseTicker (argv : List String) : String :=
  let ticker := "NNE"
  if "--ticker" ∈ argv then
    let tickerIdx := argv.indexOf "--ticker"
    if tickerIdx + 1 < argv.length then argv.getD (tickerIdx + 1) ticker
    else ticker
  else ticker

theorem mem_businessDays (s e d : Nat) :
    d ∈ businessDays s e ↔ (s ≤ d ∧ d ≤ e ∧ isWeekday d = true) := by
  unfold businessDays
  simp only [List.mem_filter, List.mem_map, List.mem_range]
  constructor
  · rintro ⟨⟨i, hi, rfl⟩, hw⟩
    exact ⟨Nat.le_add_right s i, by omega, hw⟩
  · rintro ⟨hs, he, hw⟩
    exact ⟨⟨d - s, by omega, by omega⟩, hw⟩

theorem businessDays_sorted (s e : Nat) :
    (businessDays s e).Pairwise (· < ·) := by
  unfold businessDays
  apply List.Pairwise.filter
  apply List.Pairwise.map (R := (· < ·))
  · intro a b hab
    omega
  · exact List.pairwise_lt_range _

/-- The entry, if any, one day contributes to the result mapping: a
non-raising request, a non-empty bar list, and a successful save. -/
def dayEntry (env : FetchEnv) (d : Nat) : Option (Nat × Df) :=
  match env.req d with
  | ReqResult.err => none
  | ReqResult.bars bs =>
    if bs.isEmpty then none
    else if env.ioOk d then some (d, bs) else none

theorem fetchStep_results (s : Settings) (env : FetchEnv) (t : String)
    (st : DayState) (d : Nat) :
    (fetchStep s env t st d).results = st.results ++ (dayEntry env d).toList := by
  unfold fetchStep dayEntry
  cases h : env.req d with
  | err => simp
  | bars bs =>
    by_cases hbs : bs.isEmpty
    · simp [hbs]
    · have hlen : 0 < bs.length := by
        cases bs
        · simp at hbs
        · simp
      cases hio : env.ioOk d <;> simp [hbs, hlen, hio, saveData]

theorem fetchStep_writes (s : Settings) (env : FetchEnv) (t : String)
    (st : DayState) (d : Nat) :
    (fetchStep s env t st d).writes
      = st.writes
        ++ ((dayEntry env d).map (fun _ => (savePath s t (dateStr d), d))).toList := by
  unfold fetchStep dayEntry
  cases h : env.req d with
  | err => simp
  | bars bs =>
    by_cases hbs : bs.isEmpty
    · simp [hbs]
    · have hlen : 0 < bs.length := by
        cases bs
        · simp at hbs
        · simp
      cases hio : env.ioOk d <;> simp [hbs, hlen, hio, saveData]

theorem fetchStep_requests (s : Settings) (env : FetchEnv) (t : String)
    (st : DayState) (d : Nat) :
    (fetchStep s env t st d).requests = st.requests ++ [mkRequest s t d] := by
  unfold fetchStep
  cases h : env.req d with
  | err => simp
  | bars bs =>
    by_cases hbs : bs.isEmpty
    · simp [hbs]
    · have hlen : 0 < bs.length := by
        cases bs
        · simp at hbs
        · simp
      cases hio : env.ioOk d <;> simp [hbs, hlen, hio, saveData]

theorem foldl_fetchStep_results (s : Settings) (env : FetchEnv) (t : String) :
    ∀ (days : List Nat) (st : DayState),
      (days.foldl (fetchStep s env t) st).results
        = st.results ++ days.filterMap (dayEntry env) := by
  intro days
  induction days with
  | nil => intro st; simp
  | cons d days ih =>
    intro st
    simp only [List.foldl_cons, List.filterMap_cons]
    rw [ih, fetchStep_results]
    cases h : dayEntry env d <;> simp [h]

theorem foldl_fetchStep_writes (s : Settings) (env : FetchEnv) (t : String) :
    ∀ (days : List Nat) (st : DayState),
      (days.foldl (fetchStep s env t) st).writes
        = st.writes
          ++ days.filterMap
              (fun d => (dayEntry env d).map (fun _ => (savePath s t (dateStr d), d))) := by
  intro days
  induction days with
  | nil => intro st; simp
  | cons d days ih =>
    intro st
    simp only [List.foldl_cons, List.filterMap_cons]
    rw [ih, fetchStep_writes]
    cases h : dayEntry env d <;> simp [h]

theorem foldl_fetchStep_requests (s : Settings) (env : FetchEnv) (t : String) :
    ∀ (days : List Nat) (st : DayState),
      (days.foldl (fetchStep s env t) st).requests
        = st.requests ++ days.map (mkRequest s t) := by
  intro days
  induction days with
  | nil => intro st; simp
  | cons d days ih =>
    intro st
    simp only [List.foldl_cons, List.map_cons]
    rw [ih, fetchStep_requests]
    simp

theorem foldl_batchStep_preserved (env : BatchEnv) :
    ∀ (l : List (Nat × String)) (st : BatchState) (q : String),
      (∀ p ∈ l, p.2 = q → env.fetch p.1 p.2 = TickerResult.err) →
      (l.foldl (batchStep env) st).results q = st.results q := by
  intro l
  induction l with
  | nil => intro st q _; rfl
  | cons p l ih =>
    intro st q h
    simp only [List.foldl_cons]
    rw [ih _ q (fun r hr => h r (List.mem_cons_of_mem p hr))]
    unfold batchStep
    cases hf : env.fetch p.1 p.2 with
    | err => rfl
    | ok data =>
      by_cases hq : p.2 = q
      · exact absurd (h p (List.mem_cons_self p l) hq) (by simp [hf])
      · simp [dictInsert]
        intro h'
        exact absurd h'.symm hq

theorem foldl_batchStep_mono (env : BatchEnv) :
    ∀ (l : List (Nat × String)) (st : BatchState) (q : String),
      st.results q ≠ none →
      (l.foldl (batchStep env) st).results q ≠ none := by
  intro l
  induction l with
  | nil => intro st q h; exact h
  | cons p l ih =>
    intro st q h
    simp only [List.foldl_cons]
    apply ih
    unfold batchStep
    cases hf : env.fetch p.1 p.2 with
    | err => exact h
    | ok data =>
      by_cases hq : q = p.2 <;> simp [dictInsert, hq, h]

theorem foldl_batchStep_some (env : BatchEnv) :
    ∀ (l : List (Nat × String)) (st : BatchState) (p : Nat × String),
      p ∈ l → (env.fetch p.1 p.2).isOk = true →
      (l.foldl (batchStep env) st).results p.2 ≠ none := by
  intro l
  induction l with
  | nil => intro st p hp; exact absurd hp (List.not_mem_nil p)
  | cons r l ih =>
    intro st p hp hok
    rcases List.mem_cons.mp hp with hpr | hpl
    · subst hpr
      simp only [List.foldl_cons]
      apply foldl_batchStep_mono
      unfold batchStep
      cases hf : env.fetch p.1 p.2 with
      | err => rw [hf] at hok; exact absurd hok (by simp [TickerResult.isOk])
      | ok data => simp [dictInsert]
    · simp only [List.foldl_cons]
      exact ih _ p hpl hok

theorem foldl_batchStep_sleeps (env : BatchEnv) :
    ∀ (l : List (Nat × String)) (st : BatchState),
      (l.foldl (batchStep env) st).sleeps
        = st.sleeps + l.countP (fun p => (env.fetch p.1 p.2).isOk) := by
  intro l
  induction l with
  | nil => intro st; simp
  | cons p l ih =>
    intro st
    simp only [List.foldl_cons, List.countP_cons]
    rw [ih]
    unfold batchStep
    cases hf : env.fetch p.1 p.2 with
    | err => simp [TickerResult.isOk, hf]
    | ok data =>
      simp [TickerResult.isOk, hf]
      omega

theorem saveData_settings_congr (s₁ s₂ : Settings)
    (hdir : s₁.rawDataDir = s₂.rawDataDir) :
    saveData s₁ = saveData s₂ := by
  unfold saveData savePath
  rw [hdir]

theorem mkRequest_settings_congr (s₁ s₂ : Settings)
    (hend : s₁.marketEnd = s₂.marketEnd) :
    mkRequest s₁ = mkRequest s₂ := by
  unfold mkRequest
  rw [hend]

theorem fetchStep_settings_congr (s₁ s₂ : Settings)
    (hdir : s₁.rawDataDir = s₂.rawDataDir) (hend : s₁.marketEnd = s₂.marketEnd)
    (env : FetchEnv) (t : String) :
    fetchStep s₁ env t = fetchStep s₂ env t := by
  unfold fetchStep savePath
  rw [saveData_settings_congr s₁ s₂ hdir, mkRequest_settings_congr s₁ s₂ hend, hdir]

theorem fetchDateRange_settings_congr (s₁ s₂ : Settings)
    (hdir : s₁.rawDataDir = s₂.rawDataDir) (hend : s₁.marketEnd = s₂.marketEnd)
    (conn : Bool) (env : FetchEnv) (t : String) (a : Nat) (e : Option Nat)
    (fs : FS) :
    fetchDateRange s₁ conn env t a e fs = fetchDateRange s₂ conn env t a e fs := by
  unfold fetchDateRange
  rw [fetchStep_settings_congr s₁ s₂ hdir hend env t]

theorem fetch_results_eq (s : Settings) (env : FetchEnv) (t : String)
    (a : Nat) (e : Option Nat) (fs : FS) :
    (fetchDateRange s true env t a e fs).results
      = (businessDays a (e.getD a)).filterMap (dayEntry env) := by
  unfold fetchDateRange
  rw [if_pos rfl, foldl_fetchStep_results]
  simp

theorem fetch_writes_eq (s : Settings) (env : FetchEnv) (t : String)
    (a : Nat) (e : Option Nat) (fs : FS) :
    (fetchDateRange s true env t a e fs).writes
      = (businessDays a (e.getD a)).filterMap
          (fun d => (dayEntry env d).map (fun _ => (savePath s t (dateStr d), d))) := by
  unfold fetchDateRange
  rw [if_pos rfl, foldl_fetchStep_writes]
  simp

theorem dayEntry_err (env : FetchEnv) (x : Nat)
    (hr : env.req x = ReqResult.err) : dayEntry env x = none := by
  unfold dayEntry
  rw [hr]

theorem dayEntry_bars (env : FetchEnv) (x : Nat) (bs : Df)
    (hr : env.req x = ReqResult.bars bs) :
    dayEntry env x
      = if bs.isEmpty then none
        else if env.ioOk x then some (x, bs) else none := by
  unfold dayEntry
  rw [hr]

theorem dayEntry_some (env : FetchEnv) (x : Nat) (y : Nat × Df)
    (h : dayEntry env x = some y) :
    y.1 = x ∧ env.req x = ReqResult.bars y.2 ∧ y.2 ≠ [] ∧ env.ioOk x = true := by
  cases hr : env.req x with
  | err => rw [dayEntry_err env x hr] at h; exact absurd h (by simp)
  | bars bs =>
    rw [dayEntry_bars env x bs hr] at h
    by_cases hbs : bs.isEmpty
    · rw [if_pos hbs] at h; exact absurd h (by simp)
    · rw [if_neg hbs] at h
      cases hio : env.ioOk x with
      | false => rw [hio] at h; exact absurd h (by simp)
      | true =>
        rw [hio, if_pos rfl] at h
        cases h
        exact ⟨rfl, rfl, by simpa using hbs, rfl⟩

theorem dayEntry_of_success (env : FetchEnv) (d : Nat) (bs : Df)
    (hbs : env.req d = ReqResult.bars bs) (hne : bs ≠ [])
    (hio : env.ioOk d = true) :
    dayEntry env d = some (d, bs) := by
  rw [dayEntry_bars env d bs hbs, if_neg (by simpa using hne), hio, if_pos rfl]

theorem mem_results_of_success (s : Settings) (env : FetchEnv) (t : String)
    (a : Nat) (e : Option Nat) (fs : FS) (d : Nat) (bs : Df)
    (hd : d ∈ businessDays a (e.getD a))
    (hbs : env.req d = ReqResult.bars bs) (hne : bs ≠ [])
    (hio : env.ioOk d = true) :
    (d, bs) ∈ (fetchDateRange s true env t a e fs).results := by
  rw [fetch_results_eq]
  exact List.mem_filterMap.mpr ⟨d, hd, dayEntry_of_success env d bs hbs hne hio⟩

/-- Concrete values of `Settings.DATA_SETTINGS` / `MARKET_HOURS` from
`settings.py`, used by the concrete instantiations below. -/
def sampleSettings : Settings :=
  { rawDataDir := "data/raw", marketStart := (9, 30), marketEnd := (16, 0),
    timezone := "America/New_York", interval := "1m",
    requiredColumns := ["Datetime", "Open", "High", "Low", "Close", "Volume"],
    default_retries := 3, retry_delay := 5 }

def sampleBar : Bar := { dt := 570, o := 1, hi := 2, lo := 0, c := 1, vol := 100 }

def emptyFS : FS := fun _ => none

/-- Gateway where the request for day 0 raises and every other day
returns one bar; saves always succeed. -/
def splitEnv : FetchEnv :=
  { req := fun d => if d = 0 then ReqResult.err else ReqResult.bars [sampleBar],
    ioOk := fun _ => true }

/-- Gateway where day 2 returns an empty bar list and every other day
returns one bar; saves always succeed. -/
def emptyDayEnv : FetchEnv :=
  { req := fun d => if d = 2 then ReqResult.bars [] else ReqResult.bars [sampleBar],
    ioOk := fun _ => true }

/-- Batch environment: connect succeeds, the fetch at manifest position 2
raises, every other fetch returns an empty mapping. -/
def env2ndErr : BatchEnv :=
  { connectOk := true,
    fetch := fun i _ => if i = 2 then TickerResult.err else TickerResult.ok [] }

/-- Batch environment: connect succeeds and every delegated fetch raises. -/
def envAllErr : BatchEnv :=
  { connectOk := true, fetch := fun _ _ => TickerResult.err }

/-- C1: for every start/end window given to `fetch_date_range`, the
generated business-day sequence contains exactly the weekdays (Mon-Fri)
between start and end inclusive, in ascending order, with no weekend
dates, regardless of whether start or end themselves fall on a weekend;
and the fetch loop issues exactly one request per such day, in order. -/
theorem businessDay_enumeration (s : Settings) (env : FetchEnv) (t : String)
    (a e : Nat) (fs : FS) :
    ((businessDays a e).Pairwise (· < ·))
    ∧ (∀ d, d ∈ businessDays a e ↔ (a ≤ d ∧ d ≤ e ∧ isWeekday d = true))
    ∧ (fetchDateRange s true env t a (some e) fs).requests
        = (businessDays a e).map (mkRequest s t) := by
  refine ⟨businessDays_sorted a e, fun d => mem_businessDays a e d, ?_⟩
  unfold fetchDateRange
  rw [if_pos rfl, foldl_fetchStep_requests]
  simp

/-- C2: if the per-day request raises for one day `d0` of the range, the
returned mapping still contains the entry of every other day whose fetch
returned non-empty bars and whose save succeeded: one bad day never
aborts the loop. -/
theorem day_failure_isolation (s : Settings) (env : FetchEnv) (t : String)
    (a : Nat) (e : Option Nat) (fs : FS) (d0 d : Nat) (bs : Df)
    (_h0 : d0 ∈ businessDays a (e.getD a))
    (_herr : env.req d0 = ReqResult.err)
    (hd : d ∈ businessDays a (e.getD a))
    (hbs : env.req d = ReqResult.bars bs) (hne : bs ≠ [])
    (hio : env.ioOk d = true) :
    (d, bs) ∈ (fetchDateRange s true env t a e fs).results :=
  mem_results_of_success s env t a e fs d bs hd hbs hne hio

theorem day_failure_isolation_witness :
    (0 ∈ businessDays 0 4 ∧ splitEnv.req 0 = ReqResult.err)
    ∧ (1, [sampleBar])
        ∈ (fetchDateRange sampleSettings true splitEnv "NNE" 0 (some 4) emptyFS).results :=
  ⟨⟨by decide, rfl⟩,
   day_failure_isolation sampleSettings splitEnv "NNE" 0 (some 4) emptyFS 0 1
     [sampleBar] (by decide) rfl (by decide) rfl (by simp) rfl⟩

/-- C3: a `(date, batch)` pair is in the returned mapping only if the
response was non-empty and persistence succeeded; an empty response for a
day writes no file and adds no mapping entry for that day, and every
other day with a successful fetch-and-save still appears. -/
theorem empty_day_skipped (s : Settings) (env : FetchEnv) (t : String)
    (a : Nat) (e : Option Nat) (fs : FS) (d : Nat)
    (hempty : env.req d = ReqResult.bars []) :
    (∀ df' : Df, (d, df') ∉ (fetchDateRange s true env t a e fs).results)
    ∧ (∀ p : String, (p, d) ∉ (fetchDateRange s true env t a e fs).writes)
    ∧ (∀ d' (df' : Df), (d', df') ∈ (fetchDateRange s true env t a e fs).results
        → env.req d' = ReqResult.bars df' ∧ df' ≠ [] ∧ env.ioOk d' = true)
    ∧ (∀ d' (bs' : Df), d' ∈ businessDays a (e.getD a)
        → env.req d' = ReqResult.bars bs' → bs' ≠ [] → env.ioOk d' = true
        → (d', bs') ∈ (fetchDateRange s true env t a e fs).results) := by
  have hnone : dayEntry env d = none := by
    rw [dayEntry_bars env d [] hempty]
    simp
  refine ⟨?_, ?_, ?_, ?_⟩
  · intro df' hmem
    rw [fetch_results_eq] at hmem
    rcases List.mem_filterMap.mp hmem with ⟨x, _, hx⟩
    have hprops := dayEntry_some env x (d, df') hx
    have hxd : x = d := by simpa using hprops.1.symm
    rw [hxd, hnone] at hx
    exact absurd hx (by simp)
  · intro p hmem
    rw [fetch_writes_eq] at hmem
    rcases List.mem_filterMap.mp hmem with ⟨x, _, hx⟩
    cases hdx : dayEntry env x with
    | none => rw [hdx] at hx; exact absurd hx (by simp)
    | some y =>
      rw [hdx] at hx
      have hx' : (savePath s t (dateStr x), x) = (p, d) := by simpa using hx
      have hxd : x = d := congrArg Prod.snd hx'
      rw [hxd, hnone] at hdx
      exact absurd hdx (by simp)
  · intro d' df' hmem
    rw [fetch_results_eq] at hmem
    rcases List.mem_filterMap.mp hmem with ⟨x, _, hx⟩
    have hprops := dayEntry_some env x (d', df') hx
    have hxd : x = d' := by simpa using hprops.1.symm
    rw [hxd] at hprops
    exact ⟨by simpa using hprops.2.1, by simpa using hprops.2.2.1, hprops.2.2.2⟩
  · intro d' bs' hd' hbs' hne' hio'
    exact mem_results_of_success s env t a e fs d' bs' hd' hbs' hne' hio'

theorem empty_day_skipped_witness :
    emptyDayEnv.req 2 = ReqResult.bars []
    ∧ ((∀ df' : Df, (2, df')
          ∉ (fetchDateRange sampleSettings true emptyDayEnv "NNE" 0 (some 4) emptyFS).results)
      ∧ (∀ p : String, (p, 2)
          ∉ (fetchDateRange sampleSettings true emptyDayEnv "NNE" 0 (some 4) emptyFS).writes)
      ∧ (∀ d' (df' : Df),
          (d', df') ∈ (fetchDateRange sampleSettings true emptyDayEnv "NNE" 0 (some 4) emptyFS).results
          → emptyDayEnv.req d' = ReqResult.bars df' ∧ df' ≠ [] ∧ emptyDayEnv.ioOk d' = true)
      ∧ (∀ d' (bs' : Df), d' ∈ businessDays 0 4
          → emptyDayEnv.req d' = ReqResult.bars bs' → bs' ≠ [] → emptyDayEnv.ioOk d' = true
          → (d', bs') ∈ (fetchDateRange sampleSettings true emptyDayEnv "NNE" 0 (some 4) emptyFS).results)) :=
  ⟨rfl, empty_day_skipped sampleSettings emptyDayEnv "NNE" 0 (some 4) emptyFS 2 rfl⟩

/-- C6: calling `fetch_date_range` with the connected flag false returns
an empty mapping immediately, leaves the file system untouched, performs
no file writes and issues no gateway requests (the code logs an error and
returns `{}` before any of the loop runs; no exception is possible). -/
theorem unconnected_fetch_noop (s : Settings) (env : FetchEnv) (t : String)
    (a : Nat) (e : Option Nat) (fs : FS) :
    (fetchDateRange s false env t a e fs).results = []
    ∧ (fetchDateRange s false env t a e fs).fs = fs
    ∧ (fetchDateRange s false env t a e fs).writes = []
    ∧ (fetchDateRange s false env t a e fs).requests = [] :=
  ⟨rfl, rfl, rfl, rfl⟩

/-- C7: saving the same (ticker, date) batch twice produces one file at
the canonical path whose final contents equal the second save's input
(last-write-wins, unconditional overwrite), the returned path is
identical on both calls, and no other path is touched. -/
theorem save_overwrite_last_wins (s : Settings) (fs : FS) (d1 d2 : Df)
    (ticker ds : String) (q : String) (hq : q ≠ savePath s ticker ds) :
    (saveData s true fs d1 ticker ds).1 = some (savePath s ticker ds)
    ∧ (saveData s true (saveData s true fs d1 ticker ds).2 d2 ticker ds).1
        = (saveData s true fs d1 ticker ds).1
    ∧ (saveData s true (saveData s true fs d1 ticker ds).2 d2 ticker ds).2
        (savePath s ticker ds) = some d2
    ∧ (saveData s true (saveData s true fs d1 ticker ds).2 d2 ticker ds).2 q = fs q := by
  refine ⟨rfl, rfl, by simp [saveData], by simp [saveData, hq]⟩

theorem save_overwrite_last_wins_witness :
    "other" ≠ savePath sampleSettings "NNE" "0"
    ∧ ((saveData sampleSettings true emptyFS [] "NNE" "0").1
        = some (savePath sampleSettings "NNE" "0")
      ∧ (saveData sampleSettings true
          (saveData sampleSettings true emptyFS [] "NNE" "0").2 [sampleBar] "NNE" "0").1
        = (saveData sampleSettings true emptyFS [] "NNE" "0").1
      ∧ (saveData sampleSettings true
          (saveData sampleSettings true emptyFS [] "NNE" "0").2 [sampleBar] "NNE" "0").2
          (savePath sampleSettings "NNE" "0") = some [sampleBar]
      ∧ (saveData sampleSettings true
          (saveData sampleSettings true emptyFS [] "NNE" "0").2 [sampleBar] "NNE" "0").2
          "other" = emptyFS "other") :=
  ⟨by decide,
   save_overwrite_last_wins sampleSettings emptyFS [] [sampleBar] "NNE" "0" "other" (by decide)⟩

/-- C4 counterexample: for the concrete manifest ["A", "B", "C"] where
the 2nd ticker's fetch raises and the others return normally, the dict
assignment `results[ticker] = data` of `fetch_all` is skipped by the
`except`, so the returned mapping has NO entry for "B" — refuting the
claim that it contains entries for all tickers in the manifest.  The
disconnect-once part does hold. -/
theorem batch_missing_entry_counterexample :
    env2ndErr.connectOk = true
    ∧ env2ndErr.fetch 1 "A" = TickerResult.ok []
    ∧ env2ndErr.fetch 2 "B" = TickerResult.err
    ∧ env2ndErr.fetch 3 "C" = TickerResult.ok []
    ∧ (fetchAll env2ndErr ["A", "B", "C"]).results "B" = none
    ∧ (fetchAll env2ndErr ["A", "B", "C"]).results "A" = some []
    ∧ (fetchAll env2ndErr ["A", "B", "C"]).results "C" = some []
    ∧ (fetchAll env2ndErr ["A", "B", "C"]).disconnects = 1 := by
  refine ⟨rfl, rfl, rfl, rfl, ?_, ?_, ?_, rfl⟩ <;> rfl

/-- C4 amended: after a successful connect, `fetch_all`'s returned
mapping contains an entry for every manifest position whose delegated
fetch returned normally; a ticker all of whose fetches raised has no
entry at all; and the shared connection is disconnected exactly once on
exit from the batch. -/
theorem batch_bad_ticker_amended (env : BatchEnv) (tickers : List String)
    (h : env.connectOk = true) :
    (∀ p ∈ tickers.enumFrom 1, (env.fetch p.1 p.2).isOk = true →
        (fetchAll env tickers).results p.2 ≠ none)
    ∧ (∀ q : String,
        (∀ p ∈ tickers.enumFrom 1, p.2 = q → env.fetch p.1 p.2 = TickerResult.err) →
        (fetchAll env tickers).results q = none)
    ∧ (fetchAll env tickers).disconnects = 1 := by
  unfold fetchAll
  rw [h, if_pos rfl]
  refine ⟨?_, ?_, rfl⟩
  · intro p hp hok
    show ((tickers.enumFrom 1).foldl (batchStep env)
        { results := fun _ => none, sleeps := 0 }).results p.2 ≠ none
    exact foldl_batchStep_some env _ _ p hp hok
  · intro q hq
    show ((tickers.enumFrom 1).foldl (batchStep env)
        { results := fun _ => none, sleeps := 0 }).results q = none
    rw [foldl_batchStep_preserved env _ _ q hq]

theorem batch_bad_ticker_amended_witness :
    env2ndErr.connectOk = true
    ∧ ((∀ p ∈ (["A", "B", "C"] : List String).enumFrom 1,
          (env2ndErr.fetch p.1 p.2).isOk = true →
          (fetchAll env2ndErr ["A", "B", "C"]).results p.2 ≠ none)
      ∧ (∀ q : String,
          (∀ p ∈ (["A", "B", "C"] : List String).enumFrom 1,
            p.2 = q → env2ndErr.fetch p.1 p.2 = TickerResult.err) →
          (fetchAll env2ndErr ["A", "B", "C"]).results q = none)
      ∧ (fetchAll env2ndErr ["A", "B", "C"]).disconnects = 1) :=
  ⟨rfl, batch_bad_ticker_amended env2ndErr ["A", "B", "C"] rfl⟩

/-- C5 counterexample: for the concrete manifest ["A"] whose sole fetch
raises, `fetch_all` performs zero inter-ticker sleeps, but the claim
(one delay after every iteration, including raising ones) demands one:
the `time.sleep(1)` sits inside the `try`, so an exception in the fetch
jumps past it to the `except`. -/
theorem sleep_skipped_counterexample :
    envAllErr.connectOk = true
    ∧ envAllErr.fetch 1 "A" = TickerResult.err
    ∧ (fetchAll envAllErr ["A"]).sleeps = 0
    ∧ (fetchAll envAllErr ["A"]).sleeps ≠ (["A"] : List String).length := by
  refine ⟨rfl, rfl, rfl, ?_⟩
  decide

/-- C5 amended: after a successful connect, the fixed inter-ticker delay
happens after exactly the iterations whose delegated fetch returned
without raising; an iteration that raises skips the delay. -/
theorem sleep_after_success_only (env : BatchEnv) (tickers : List String)
    (h : env.connectOk = true) :
    (fetchAll env tickers).sleeps
      = (tickers.enumFrom 1).countP (fun p => (env.fetch p.1 p.2).isOk) := by
  unfold fetchAll
  rw [h, if_pos rfl]
  show ((tickers.enumFrom 1).foldl (batchStep env)
      { results := fun _ => none, sleeps := 0 }).sleeps
    = (tickers.enumFrom 1).countP (fun p => (env.fetch p.1 p.2).isOk)
  rw [foldl_batchStep_sleeps]
  simp

theorem sleep_after_success_only_witness :
    env2ndErr.connectOk = true
    ∧ (fetchAll env2ndErr ["A", "B", "C"]).sleeps
        = ((["A", "B", "C"] : List String).enumFrom 1).countP
            (fun p => (env2ndErr.fetch p.1 p.2).isOk) :=
  ⟨rfl, sleep_after_success_only env2ndErr ["A", "B", "C"] rfl⟩

/-- C8: `default_retries` and `retry_delay` are dead configuration — two
runs that differ only in those two settings make the same requests,
perform the same writes and return the same results, both for the
single-ticker fetcher and for a batch whose delegated fetches are the
real `fetch_date_range`. -/
theorem retry_settings_dead (s : Settings) (r dl : Nat) (conn : Bool)
    (env : FetchEnv) (t : String) (a : Nat) (e : Option Nat) (fs : FS)
    (cok : Bool) (tickerEnv : String → FetchEnv) (raises : Nat → Bool)
    (tickers : List String) :
    fetchDateRange { s with default_retries := r, retry_delay := dl } conn env t a e fs
      = fetchDateRange s conn env t a e fs
    ∧ fetchAll
        ⟨cok, delegatedFetch { s with default_retries := r, retry_delay := dl }
          tickerEnv raises a e fs⟩ tickers
      = fetchAll ⟨cok, delegatedFetch s tickerEnv raises a e fs⟩ tickers := by
  have hall : ∀ (conn' : Bool) (env' : FetchEnv) (t' : String),
      fetchDateRange { s with default_retries := r, retry_delay := dl } conn' env' t' a e fs
        = fetchDateRange s conn' env' t' a e fs :=
    fun conn' env' t' =>
      fetchDateRange_settings_congr _ _ rfl rfl conn' env' t' a e fs
  refine ⟨hall conn env t, ?_⟩
  have hdel : delegatedFetch { s with default_retries := r, retry_delay := dl }
      tickerEnv raises a e fs = delegatedFetch s tickerEnv raises a e fs := by
    funext i t'
    unfold delegatedFetch
    rw [hall true (tickerEnv t') t']
  rw [hdel]

/-- C9: in the single-ticker CLI, when `--ticker` is the last argument
with no symbol after it, parsing silently keeps the default ticker
"NNE" and proceeds (no error, no warning). -/
theorem ticker_flag_last_fallback (l : List String)
    (h : "--ticker" ∉ l) :
    parseTicker (l ++ ["--ticker"]) = "NNE" := by
  unfold parseTicker
  have hmem : "--ticker" ∈ l ++ ["--ticker"] := by simp
  rw [if_pos hmem]
  have hidx : (l ++ ["--ticker"]).indexOf "--ticker" = l.length := by
    rw [List.indexOf_append_of_not_mem h, List.indexOf_cons_self]
    omega
  rw [hidx]
  have hlen : (l ++ ["--ticker"]).length = l.length + 1 := by simp
  rw [hlen]
  simp

theorem ticker_flag_last_fallback_witness :
    "--ticker" ∉ (["prog", "20240101"] : List String)
    ∧ parseTicker (["prog", "20240101"] ++ ["--ticker"]) = "NNE" :=
  ⟨by decide, ticker_flag_last_fallback ["prog", "20240101"] (by decide)⟩

/-- C10: if the gateway connect call raises, `connect` returns false and
leaves the fetcher state unchanged, so the connected flag stays false
and every subsequent `fetch_date_range` on that instance returns the
empty mapping and does nothing. -/
theorem connect_failure_keeps_unconnected (st : FetcherState)
    (h : st.connected = false) (s : Settings) (env : FetchEnv) (t : String)
    (a : Nat) (e : Option Nat) (fs : FS) :
    connect false st = (false, st)
    ∧ (connect false st).2.connected = false
    ∧ (fetchDateRange s (connect false st).2.connected env t a e fs).results = []
    ∧ (fetchDateRange s (connect false st).2.connected env t a e fs).fs = fs
    ∧ (fetchDateRange s (connect false st).2.connected env t a e fs).writes = []
    ∧ (fetchDateRange s (connect false st).2.connected env t a e fs).requests = [] := by
  have hc : connect false st = (false, st) := rfl
  rw [hc, h]
  exact ⟨rfl, rfl, rfl, rfl, rfl, rfl⟩

theorem connect_failure_keeps_unconnected_witness :
    (⟨false⟩ : FetcherState).connected = false
    ∧ (connect false ⟨false⟩ = (false, (⟨false⟩ : FetcherState))
      ∧ (connect false ⟨false⟩).2.connected = false
      ∧ (fetchDateRange sampleSettings (connect false ⟨false⟩).2.connected
          splitEnv "NNE" 0 (some 4) emptyFS).results = []
      ∧ (fetchDateRange sampleSettings (connect false ⟨false⟩).2.connected
          splitEnv "NNE" 0 (some 4) emptyFS).fs = emptyFS
      ∧ (fetchDateRange sampleSettings (connect false ⟨false⟩).2.connected
          splitEnv "NNE" 0 (some 4) emptyFS).writes = []
      ∧ (fetchDateRange sampleSettings (connect false ⟨false⟩).2.connected
          splitEnv "NNE" 0 (some 4) emptyFS).requests = []) :=
  ⟨rfl, connect_failure_keeps_unconnected ⟨false⟩ rfl sampleSettings splitEnv
    "NNE" 0 (some 4) emptyFS⟩

end TradeLab
